import Mathlib

/-!
Verification of the Policast repository: a shallow embedding of its data
model (types.ts), the retry/backoff wrapper and image search
(services/geminiService.ts), the application-level project/news handlers
(App.tsx) and the detail-view generation/save handlers (DetailView.tsx),
together with theorems settling the specification's claims.
-/

namespace Policast

/-! ### Data model (types.ts) -/

structure NewsItem where
  id : String
  title : String
  snippet : String
  source : Option String
  url : Option String
  publishedDate : Option String
deriving DecidableEq

structure GeneratedContent where
  summaryEnglish : String
  summaryBurmese : String
  scriptBurmese : String
  facebookPostBurmese : String
  burmeseTitles : List String
  visualPrompts : List String
  imageQueries : List String
deriving DecidableEq

structure GroundingImage where
  url : String
  title : String
  source : String
deriving DecidableEq

structure SavedProject where
  id : String
  newsItem : NewsItem
  generatedContent : Option GeneratedContent
  savedAt : String
  groundingImages : List GroundingImage
deriving DecidableEq

/-! ### Errors and the retry wrapper (geminiService.ts) -/

/-- A thrown JavaScript error as inspected by `retryOperation`:
its `message`, `status` and `response.status` fields. -/
structure JsError where
  message : String
  status : Option Nat
  responseStatus : Option Nat
deriving DecidableEq

/-- Whether the character list `pat` is a prefix of `s` (used to model the
`includes` test on error messages). -/
def charsStartWith : List Char → List Char → Bool
  | _, [] => true
  | [], _ :: _ => false
  | c :: cs, d :: ds => c == d && charsStartWith cs ds

/-- Whether the character list `pat` occurs inside `s`. -/
def charsContain (s pat : List Char) : Bool :=
  match s with
  | [] => pat.isEmpty
  | _ :: rest => charsStartWith s pat || charsContain rest pat

/-- `strContains s pat` models JavaScript `s.includes(pat)`. -/
def strContains (s pat : String) : Bool :=
  charsContain s.data pat.data

/-- The rate-limit test of `retryOperation`: message contains `429` or
`Too Many Requests`, or a 429 status on the error or its response. -/
def isRateLimit (e : JsError) : Bool :=
  strContains e.message ("429") ||
  strContains e.message ("Too Many Requests") ||
  e.status == some 429 ||
  e.responseStatus == some 429

/-- The error thrown after the retry loop of `retryOperation` exits. -/
def maxRetriesError : JsError :=
  { message := "Max retries exceeded", status := none, responseStatus := none }

/-- The `for (let i = 0; i < retries; i++)` loop of `retryOperation`.
`op j` is the outcome of the `j`-th call of the wrapped operation;
`fuel` counts the remaining iterations (initially `retries`, so that the
loop body runs exactly while `i < retries`).  On failure the error is
rethrown unless it is a rate limit and `i < retries - 1`. -/
def retryLoopAux {α : Type} (op : Nat → Except JsError α) (retries : Nat) :
    Nat → Nat → Except JsError α
  | 0, _ => Except.error maxRetriesError
  | fuel + 1, i =>
    match op i with
    | Except.ok v => Except.ok v
    | Except.error e =>
      if isRateLimit e && decide (i < retries - 1) then
        retryLoopAux op retries fuel (i + 1)
      else
        Except.error e

/-- `retryOperation` from geminiService.ts, with the attempt outcomes
given by `op` (attempt numbering starts at 0). -/
def retryOperation {α : Type} (op : Nat → Except JsError α) (retries : Nat) :
    Except JsError α :=
  retryLoopAux op retries retries 0

/-- The default `retries = 3` of `retryOperation`, used by all three
service wrappers. -/
def defaultRetries : Nat := 3

/-! ### Image search (searchRelatedImages in geminiService.ts) -/

/-- The `web` part of a grounding chunk (`chunk.web`), with possibly
missing `uri` and `title`. -/
structure WebChunk where
  uri : Option String
  title : Option String
deriving DecidableEq

/-- A grounding chunk from the search response. -/
structure GroundingChunk where
  web : Option WebChunk
deriving DecidableEq

/-- The part of a `GenerateContentResponse` read by `searchRelatedImages`:
`response.candidates?.[0]?.groundingMetadata?.groundingChunks`. -/
structure GenResponse where
  groundingChunks : Option (List GroundingChunk)
deriving DecidableEq

/-- JavaScript truthiness of an optional string: `undefined` and the
empty string are falsy. -/
def jsTruthy : Option String → Bool
  | none => false
  | some s => !(s == "")

/-- JavaScript `o || d` for an optional string `o` and default `d`. -/
def jsOrStr (o : Option String) (d : String) : String :=
  match o with
  | none => d
  | some s => if s == "" then d else s

/-- `strEndsWith s pat`: the string `s` ends with `pat`. -/
def strEndsWith (s pat : String) : Bool :=
  charsStartWith s.data.reverse pat.data.reverse

/-- The regex test `\.(jpeg|jpg|gif|png|webp)$` on a uri: the uri ends in
one of the image extensions. -/
def hasImageExt (u : String) : Bool :=
  strEndsWith u (".jpeg") ||
  strEndsWith u (".jpg") ||
  strEndsWith u (".gif") ||
  strEndsWith u (".png") ||
  strEndsWith u (".webp")

/-- The loop body of `searchRelatedImages`: a chunk is pushed when
`chunk.web?.uri` is truthy and the uri matches the image-extension regex
or `chunk.web.title` is truthy; the title and source fall back to the
literals used in the source. -/
def chunkImage (c : GroundingChunk) : Option GroundingImage :=
  match c.web with
  | none => none
  | some w =>
    match w.uri with
    | none => none
    | some u =>
      if u == "" then none
      else if hasImageExt u || jsTruthy w.title then
        some { url := u,
               title := jsOrStr w.title ("Source Link"),
               source := jsOrStr w.title ("Web Result") }
      else none

/-- The `chunks.forEach(... images.push ...)` accumulation. -/
def extractImages (chunks : List GroundingChunk) : List GroundingImage :=
  chunks.filterMap chunkImage

/-- The duplicate filter
`images.filter((v,i,a)=>a.findIndex(v2=>(v2.url===v.url))===i)`:
keep an element exactly when its index is the first index of its url. -/
def dedupByUrl (images : List GroundingImage) : List GroundingImage :=
  ((images.enum).filter
    (fun iv => images.findIdx (fun v2 => v2.url == iv.2.url) == iv.1)).map
    Prod.snd

/-- The error thrown by `getClient` when the API key is absent. -/
def apiKeyMissingError : JsError :=
  { message := "API Key not found in environment variables",
    status := none, responseStatus := none }

/-- `searchRelatedImages` from geminiService.ts.  `getClient()` runs
before the `try` block and throws when the key is empty; inside the
`try`, the retried call's grounding chunks are turned into images,
deduplicated by url and capped at 10; any error caught by the `catch`
yields the empty list.  The search query built from `queries` only
parameterizes the external call, whose outcomes are `op`. -/
def searchRelatedImages (apiKey : String) (queries : List String)
    (op : Nat → Except JsError GenResponse) :
    Except JsError (List GroundingImage) :=
  if apiKey == "" then Except.error apiKeyMissingError
  else
    match retryOperation op defaultRetries with
    | Except.ok response =>
      Except.ok ((dedupByUrl (match response.groundingChunks with
        | some chunks => extractImages chunks
        | none => [])).take 10)
    | Except.error _ => Except.ok []

/-! ### News list and saved-project handlers (App.tsx) -/

/-- The `setNews` updater inside `handleFetchNews`: titles already in
`prevNews` form the seen set, the batch is filtered to unseen titles and
the survivors are prepended. -/
def mergeFetchedNews (prevNews items : List NewsItem) : List NewsItem :=
  (items.filter (fun item =>
    !((prevNews.map (fun n => n.title)).any (fun t => t == item.title)))) ++
  prevNews

/-- A session's sequence of news fetches starting from the empty list,
each applying the `handleFetchNews` merge. -/
def runFetches (batches : List (List NewsItem)) : List NewsItem :=
  batches.foldl mergeFetchedNews []

/-- The news list has no two items with equal titles. -/
abbrev titlesNodup (l : List NewsItem) : Prop :=
  (l.map (fun n => n.title)).Nodup

/-- `handleProjectSave` from App.tsx: `findIndex` by id, update in place
when found, otherwise prepend. -/
def handleProjectSave (prev : List SavedProject) (project : SavedProject) :
    List SavedProject :=
  match prev.findIdx? (fun p => p.id == project.id) with
  | some i => prev.set i project
  | none => project :: prev

/-- `deleteProject` from App.tsx: on confirmation, filter out the id. -/
def deleteProject (prev : List SavedProject) (pid : String)
    (confirmed : Bool) : List SavedProject :=
  if confirmed then prev.filter (fun p => !(p.id == pid)) else prev

/-- A parsed import payload: a JSON array of projects, or any other JSON
value (the TypeScript code casts array elements without validation). -/
inductive ImportPayload where
  | arr : List SavedProject → ImportPayload
  | nonArray : ImportPayload

/-- `handleGlobalImport` from App.tsx: for an array payload, the imported
projects whose ids are absent from `prev` are prepended; any other
payload is rejected and the collection left unchanged. -/
def handleGlobalImport (prev : List SavedProject) (payload : ImportPayload) :
    List SavedProject :=
  match payload with
  | ImportPayload.arr json =>
    (json.filter (fun j => !(prev.any (fun p => p.id == j.id)))) ++ prev
  | ImportPayload.nonArray => prev

/-- The persisted collection has pairwise-distinct project ids. -/
abbrev idsNodup (ps : List SavedProject) : Prop :=
  (ps.map (fun p => p.id)).Nodup

/-! ### Detail view: generation and explicit save (DetailView.tsx) -/

/-- The project record built by `handleGenerate`/`handleLocalSave`:
`existingProject?.id || fresh id` (JavaScript `||`), the news item, the
content, the timestamp and the images. -/
def generatedProject (existing : Option SavedProject) (newId : String)
    (item : NewsItem) (generated : GeneratedContent) (now : String)
    (images : List GroundingImage) : SavedProject :=
  { id := jsOrStr (existing.map (fun p => p.id)) newId,
    newsItem := item,
    generatedContent := some generated,
    savedAt := now,
    groundingImages := images }

/-- `handleGenerate` from DetailView.tsx, as its effect on the saved
collection through `onSave = handleProjectSave`: on a successful
generation (and, when image queries are present, a successful image
search) the generated project is passed to `onSave`; any error caught by
the `catch` leaves the collection unchanged. -/
def handleGenerate (saved : List SavedProject) (existing : Option SavedProject)
    (newId : String) (item : NewsItem)
    (genOutcome : Except JsError GeneratedContent)
    (searchResult : Except JsError (List GroundingImage)) (now : String) :
    List SavedProject :=
  match genOutcome with
  | Except.error _ => saved
  | Except.ok generated =>
    match
      (if generated.imageQueries.isEmpty then Except.ok [] else searchResult) with
    | Except.error _ => saved
    | Except.ok images =>
      handleProjectSave saved (generatedProject existing newId item generated now images)

/-- `handleLocalSave` from DetailView.tsx: a no-op without content,
otherwise the current content is saved through `onSave`. -/
def handleLocalSave (saved : List SavedProject) (existing : Option SavedProject)
    (newId : String) (item : NewsItem) (content : Option GeneratedContent)
    (now : String) (images : List GroundingImage) : List SavedProject :=
  match content with
  | none => saved
  | some c =>
    handleProjectSave saved (generatedProject existing newId item c now images)

/-! ### Local persistence (App.tsx `savedProjects` state and its effect) -/

/-- Modelled from the spec: the platform JSON layer (`JSON.stringify` /
`JSON.parse`, not part of this repository) is modelled at the level of
JSON values; "one key holding the full JSON-serialized project list". -/
inductive JsonValue where
  | str : String → JsonValue
  | arr : List JsonValue → JsonValue
  | obj : List (String × JsonValue) → JsonValue
  | jsNull : JsonValue

/-- Encoding of an optional string field (`undefined`/missing modelled
as JSON null). -/
def encodeOptStr : Option String → JsonValue
  | none => JsonValue.jsNull
  | some s => JsonValue.str s

def decodeOptStr : JsonValue → Option (Option String)
  | JsonValue.jsNull => some none
  | JsonValue.str s => some (some s)
  | _ => none

/-- Modelled from the spec: JSON serialization of a `NewsItem`. -/
def encodeNewsItem (n : NewsItem) : JsonValue :=
  JsonValue.obj
    [("id", JsonValue.str n.id),
     ("title", JsonValue.str n.title),
     ("snippet", JsonValue.str n.snippet),
     ("source", encodeOptStr n.source),
     ("url", encodeOptStr n.url),
     ("publishedDate", encodeOptStr n.publishedDate)]

def decodeNewsItem : JsonValue → Option NewsItem
  | JsonValue.obj
      [("id", JsonValue.str i),
       ("title", JsonValue.str t),
       ("snippet", JsonValue.str sn),
       ("source", js),
       ("url", ju),
       ("publishedDate", jd)] =>
    match decodeOptStr js, decodeOptStr ju, decodeOptStr jd with
    | some s, some u, some d =>
      some { id := i, title := t, snippet := sn,
             source := s, url := u, publishedDate := d }
    | _, _, _ => none
  | _ => none

/-- Decoding of a list of JSON values, element by element. -/
def decodeList {α : Type} (dec : JsonValue → Option α) :
    List JsonValue → Option (List α)
  | [] => some []
  | j :: js =>
    match dec j with
    | some a =>
      match decodeList dec js with
      | some as => some (a :: as)
      | none => none
    | none => none

def encodeStrList (l : List String) : JsonValue :=
  JsonValue.arr (l.map JsonValue.str)

def decodeStr : JsonValue → Option String
  | JsonValue.str s => some s
  | _ => none

def decodeStrList : JsonValue → Option (List String)
  | JsonValue.arr js => decodeList decodeStr js
  | _ => none

/-- Modelled from the spec: JSON serialization of a `GeneratedContent`. -/
def encodeGeneratedContent (c : GeneratedContent) : JsonValue :=
  JsonValue.obj
    [("summaryEnglish", JsonValue.str c.summaryEnglish),
     ("summaryBurmese", JsonValue.str c.summaryBurmese),
     ("scriptBurmese", JsonValue.str c.scriptBurmese),
     ("facebookPostBurmese", JsonValue.str c.facebookPostBurmese),
     ("burmeseTitles", encodeStrList c.burmeseTitles),
     ("visualPrompts", encodeStrList c.visualPrompts),
     ("imageQueries", encodeStrList c.imageQueries)]

def decodeGeneratedContent : JsonValue → Option GeneratedContent
  | JsonValue.obj
      [("summaryEnglish", JsonValue.str a),
       ("summaryBurmese", JsonValue.str b),
       ("scriptBurmese", JsonValue.str c),
       ("facebookPostBurmese", JsonValue.str d),
       ("burmeseTitles", jt),
       ("visualPrompts", jv),
       ("imageQueries", jq)] =>
    match decodeStrList jt, decodeStrList jv, decodeStrList jq with
    | some ts, some vs, some qs =>
      some { summaryEnglish := a, summaryBurmese := b, scriptBurmese := c,
             facebookPostBurmese := d, burmeseTitles := ts,
             visualPrompts := vs, imageQueries := qs }
    | _, _, _ => none
  | _ => none

def encodeGroundingImage (g : GroundingImage) : JsonValue :=
  JsonValue.obj
    [("url", JsonValue.str g.url),
     ("title", JsonValue.str g.title),
     ("source", JsonValue.str g.source)]

def decodeGroundingImage : JsonValue → Option GroundingImage
  | JsonValue.obj
      [("url", JsonValue.str u),
       ("title", JsonValue.str t),
       ("source", JsonValue.str s)] =>
    some { url := u, title := t, source := s }
  | _ => none

/-- `generatedContent` is `GeneratedContent | null` in types.ts. -/
def encodeOptContent : Option GeneratedContent → JsonValue
  | none => JsonValue.jsNull
  | some c => encodeGeneratedContent c

def decodeOptContent : JsonValue → Option (Option GeneratedContent)
  | JsonValue.jsNull => some none
  | j => (decodeGeneratedContent j).map some

/-- Modelled from the spec: JSON serialization of a `SavedProject`. -/
def encodeSavedProject (p : SavedProject) : JsonValue :=
  JsonValue.obj
    [("id", JsonValue.str p.id),
     ("newsItem", encodeNewsItem p.newsItem),
     ("generatedContent", encodeOptContent p.generatedContent),
     ("savedAt", JsonValue.str p.savedAt),
     ("groundingImages", JsonValue.arr (p.groundingImages.map encodeGroundingImage))]

def decodeSavedProject : JsonValue → Option SavedProject
  | JsonValue.obj
      [("id", JsonValue.str i),
       ("newsItem", jn),
       ("generatedContent", jc),
       ("savedAt", JsonValue.str t),
       ("groundingImages", JsonValue.arr jg)] =>
    match decodeNewsItem jn, decodeOptContent jc,
          decodeList decodeGroundingImage jg with
    | some n, some c, some gs =>
      some { id := i, newsItem := n, generatedContent := c,
             savedAt := t, groundingImages := gs }
    | _, _, _ => none
  | _ => none

/-- The full project list serialized as one JSON array. -/
def encodeProjects (ps : List SavedProject) : JsonValue :=
  JsonValue.arr (ps.map encodeSavedProject)

def decodeProjects : JsonValue → Option (List SavedProject)
  | JsonValue.arr js => decodeList decodeSavedProject js
  | _ => none

/-- The single local-storage key of App.tsx. -/
def storageKey : String := "policast_saved"

/-- localStorage modelled as a partial map from keys to stored JSON. -/
def LocalStore : Type := String → Option JsonValue

/-- `localStorage.setItem` on the model. -/
def setItem (store : LocalStore) (key : String) (v : JsonValue) : LocalStore :=
  fun k => if k == key then some v else store k

/-- The `useEffect` persisting `savedProjects`: the whole serialized list
is written to the one key on every change. -/
def saveProjectsToStorage (store : LocalStore) (ps : List SavedProject) :
    LocalStore :=
  setItem store storageKey (encodeProjects ps)

/-- The `useState` initializer of `savedProjects`: parse the stored value
when the key is present, else the empty list. -/
def loadProjectsFromStorage (store : LocalStore) : List SavedProject :=
  match store storageKey with
  | some j => (decodeProjects j).getD []
  | none => []

/-! ### Concrete values used by witnesses and counterexamples -/

/-- A rate-limited error (message contains `429`). -/
def exRateLimitError : JsError :=
  { message := "429 Too Many Requests", status := some 429,
    responseStatus := some 429 }

/-- An error that is not a rate limit. -/
def exOtherError : JsError :=
  { message := "network down", status := none, responseStatus := none }

/-- Attempt outcomes: a 429 on the first attempt, then success. -/
def exOpRetry : Nat → Except JsError Nat := fun j =>
  if j == 0 then Except.error exRateLimitError else Except.ok 42

/-- Attempt outcomes: a non-rate-limit failure on every attempt. -/
def exOpFail : Nat → Except JsError Nat := fun _ => Except.error exOtherError

/-- Attempt outcomes: a 429 on every attempt. -/
def exOpAllRate : Nat → Except JsError Nat := fun _ =>
  Except.error exRateLimitError

/-- An image-search call whose attempts all fail (non-rate-limit). -/
def exOpFailResp : Nat → Except JsError GenResponse := fun _ =>
  Except.error exOtherError

def exNewsA : NewsItem :=
  { id := "n1", title := "Title A", snippet := "sA",
    source := none, url := none, publishedDate := none }

def exNewsB : NewsItem :=
  { id := "n2", title := "Title B", snippet := "sB",
    source := none, url := none, publishedDate := none }

/-- Two distinct news items sharing one title (a batch with an internal
duplicate). -/
def exNewsDup1 : NewsItem :=
  { id := "d1", title := "Same Title", snippet := "s1",
    source := none, url := none, publishedDate := none }

def exNewsDup2 : NewsItem :=
  { id := "d2", title := "Same Title", snippet := "s2",
    source := none, url := none, publishedDate := none }

def exContent : GeneratedContent :=
  { summaryEnglish := "se", summaryBurmese := "sb", scriptBurmese := "sc",
    facebookPostBurmese := "fb", burmeseTitles := [], visualPrompts := [],
    imageQueries := [] }

def exProjA : SavedProject :=
  { id := "a", newsItem := exNewsA, generatedContent := none,
    savedAt := "t1", groundingImages := [] }

def exProjB : SavedProject :=
  { id := "b", newsItem := exNewsB, generatedContent := none,
    savedAt := "t2", groundingImages := [] }

/-- A second project with the same id as `exProjB`. -/
def exProjB2 : SavedProject :=
  { id := "b", newsItem := exNewsA, generatedContent := none,
    savedAt := "t3", groundingImages := [] }

def exWeb1 : WebChunk :=
  { uri := some ("http://a/img.jpg"), title := some ("T1") }

def exWeb2 : WebChunk :=
  { uri := some ("http://a/img.jpg"), title := some ("T2") }

def exWeb3 : WebChunk :=
  { uri := some ("http://b/pic.png"), title := none }

def exResponse : GenResponse :=
  { groundingChunks :=
      some [{ web := some exWeb1 }, { web := some exWeb2 },
            { web := some exWeb3 }] }

/-- An image-search call that succeeds with `exResponse` immediately. -/
def exOpSearch : Nat → Except JsError GenResponse := fun _ =>
  Except.ok exResponse

/-- The image list produced from `exResponse`: the duplicate url is
dropped. -/
def exSearchResult : List GroundingImage :=
  [{ url := "http://a/img.jpg", title := "T1", source := "T1" },
   { url := "http://b/pic.png", title := "Source Link",
     source := "Web Result" }]

/-! ### Theorems: the retry wrapper (claims C2, C3) -/

theorem retryLoopAux_succ_ok {α : Type} (op : Nat → Except JsError α)
    (retries n i : Nat) (v : α) (h : op i = Except.ok v) :
    retryLoopAux op retries (n + 1) i = Except.ok v := by
  unfold retryLoopAux
  rw [h]

theorem retryLoopAux_succ_error {α : Type} (op : Nat → Except JsError α)
    (retries n i : Nat) (e : JsError) (h : op i = Except.error e) :
    retryLoopAux op retries (n + 1) i =
      (if isRateLimit e && decide (i < retries - 1) then
        retryLoopAux op retries n (i + 1)
      else Except.error e) := by
  have hstep : retryLoopAux op retries (n + 1) i =
      (match op i with
       | Except.ok v => Except.ok v
       | Except.error e2 =>
         if isRateLimit e2 && decide (i < retries - 1) then
           retryLoopAux op retries n (i + 1)
         else Except.error e2) := rfl
  rw [hstep, h]

theorem retryLoopAux_reaches_ok {α : Type} (op : Nat → Except JsError α)
    (retries k : Nat) (v : α) (hk : k < retries)
    (hpre : ∀ j, j < k → ∃ ej, op j = Except.error ej ∧ isRateLimit ej = true)
    (hok : op k = Except.ok v) :
    ∀ fuel i, i ≤ k → fuel + i = retries →
      retryLoopAux op retries fuel i = Except.ok v := by
  intro fuel
  induction fuel with
  | zero =>
    intro i hik hfi
    exact absurd hfi (by omega)
  | succ n ih =>
    intro i hik hfi
    rcases Nat.eq_or_lt_of_le hik with hcase | hik2
    · rw [hcase]
      exact retryLoopAux_succ_ok op retries n k v hok
    · obtain ⟨ej, hej, hrl⟩ := hpre i hik2
      rw [retryLoopAux_succ_error op retries n i ej hej]
      rw [if_pos (by rw [hrl]; simp only [Bool.true_and, decide_eq_true_eq]; omega)]
      exact ih (i + 1) (by omega) (by omega)

theorem retryLoopAux_reaches_error {α : Type} (op : Nat → Except JsError α)
    (retries k : Nat) (e : JsError) (hk : k < retries)
    (hpre : ∀ j, j < k → ∃ ej, op j = Except.error ej ∧ isRateLimit ej = true)
    (herr : op k = Except.error e) (hnrl : isRateLimit e = false) :
    ∀ fuel i, i ≤ k → fuel + i = retries →
      retryLoopAux op retries fuel i = Except.error e := by
  intro fuel
  induction fuel with
  | zero =>
    intro i hik hfi
    exact absurd hfi (by omega)
  | succ n ih =>
    intro i hik hfi
    rcases Nat.eq_or_lt_of_le hik with hcase | hik2
    · rw [hcase]
      rw [retryLoopAux_succ_error op retries n k e herr]
      rw [if_neg (by simp only [hnrl, Bool.false_and]; exact Bool.false_ne_true)]
    · obtain ⟨ej, hej, hrl⟩ := hpre i hik2
      rw [retryLoopAux_succ_error op retries n i ej hej]
      rw [if_pos (by rw [hrl]; simp only [Bool.true_and, decide_eq_true_eq]; omega)]
      exact ih (i + 1) (by omega) (by omega)

theorem retryLoopAux_exhaust {α : Type} (op : Nat → Except JsError α)
    (retries : Nat) (es : Nat → JsError)
    (hall : ∀ j, j < retries →
      op j = Except.error (es j) ∧ isRateLimit (es j) = true) :
    ∀ fuel i, fuel + i = retries → i < retries →
      retryLoopAux op retries fuel i = Except.error (es (retries - 1)) := by
  intro fuel
  induction fuel with
  | zero =>
    intro i hfi hi
    exact absurd hfi (by omega)
  | succ n ih =>
    intro i hfi hi
    obtain ⟨hop, hrl⟩ := hall i hi
    rw [retryLoopAux_succ_error op retries n i (es i) hop]
    by_cases hlast : i < retries - 1
    · rw [if_pos (by rw [hrl]; simp only [Bool.true_and, decide_eq_true_eq]; exact hlast)]
      exact ih (i + 1) (by omega) (by omega)
    · rw [if_neg (by simp only [hrl, Bool.true_and, decide_eq_true_eq]; exact hlast)]
      have hieq : i = retries - 1 := by omega
      rw [hieq]

/-- C2: if the attempts before `k` all fail with rate-limit errors and
attempt `k` (within the retry count) succeeds, `retryOperation` returns
that success; and if attempt `k` fails with a non-rate-limit error, that
error is propagated immediately — the result is the same for every
operation agreeing on attempts `0..k`, i.e. later attempts are never
made. -/
theorem retryOperation_rate_limit_then_success {α : Type}
    (op : Nat → Except JsError α) (retries k : Nat) (v : α) (e : JsError)
    (hpre : ∀ j, j < k → ∃ ej, op j = Except.error ej ∧ isRateLimit ej = true)
    (hk : k < retries) :
    (op k = Except.ok v → retryOperation op retries = Except.ok v) ∧
    (op k = Except.error e → isRateLimit e = false →
      ∀ op2 : Nat → Except JsError α, (∀ j, j ≤ k → op2 j = op j) →
        retryOperation op2 retries = Except.error e) := by
  constructor
  · intro hok
    exact retryLoopAux_reaches_ok op retries k v hk hpre hok retries 0
      (Nat.zero_le k) (by omega)
  · intro herr hnrl op2 hagree
    have hpre2 : ∀ j, j < k →
        ∃ ej, op2 j = Except.error ej ∧ isRateLimit ej = true := by
      intro j hj
      obtain ⟨ej, h1, h2⟩ := hpre j hj
      exact ⟨ej, by rw [hagree j (Nat.le_of_lt hj)]; exact h1, h2⟩
    have herr2 : op2 k = Except.error e := by
      rw [hagree k (Nat.le_refl k)]; exact herr
    exact retryLoopAux_reaches_error op2 retries k e hk hpre2 herr2 hnrl
      retries 0 (Nat.zero_le k) (by omega)

/-- Witness for C2: a 429 on attempt 0 followed by success on attempt 1
returns the success; an operation failing with a non-rate-limit error
fails immediately with that error. -/
theorem retryOperation_rate_limit_then_success_witness :
    retryOperation exOpRetry 3 = Except.ok 42 ∧
    retryOperation exOpFail 3 = Except.error exOtherError := by
  constructor
  · exact (retryOperation_rate_limit_then_success exOpRetry 3 1 42 exOtherError
      (by
        intro j hj
        have hj0 : j = 0 := by omega
        rw [hj0]
        exact ⟨exRateLimitError, rfl, by decide⟩)
      (by omega)).1 rfl
  · exact (retryOperation_rate_limit_then_success exOpFail 3 0 42 exOtherError
      (by intro j hj; exact absurd hj (Nat.not_lt_zero j))
      (by omega)).2 rfl (by decide) exOpFail (fun j _ => rfl)

/-- C3 counterexample: with every attempt failing rate-limited,
`retryOperation` with the default retry count fails with the underlying
429 error, not with the generic `Max retries exceeded` error. -/
theorem retryOperation_exhaust_cx :
    retryOperation exOpAllRate 3 = Except.error exRateLimitError ∧
    exRateLimitError ≠ maxRetriesError := by
  exact ⟨rfl, by decide⟩

/-- C3 amended: when every attempt within the retry count fails with a
rate-limit error (and the retry count is positive), `retryOperation`
propagates the underlying error of the last attempt; the generic
`Max retries exceeded` error is unreachable. -/
theorem retryOperation_exhaust_propagates {α : Type}
    (op : Nat → Except JsError α) (retries : Nat) (es : Nat → JsError)
    (hall : ∀ j, j < retries →
      op j = Except.error (es j) ∧ isRateLimit (es j) = true)
    (hpos : 0 < retries) :
    retryOperation op retries = Except.error (es (retries - 1)) := by
  unfold retryOperation
  exact retryLoopAux_exhaust op retries es hall retries 0 (by omega) hpos

/-- Witness for the amended C3: three rate-limited attempts end with the
underlying rate-limit error. -/
theorem retryOperation_exhaust_propagates_witness :
    retryOperation exOpAllRate 3 = Except.error exRateLimitError := by
  exact retryOperation_exhaust_propagates exOpAllRate 3
    (fun _ => exRateLimitError)
    (fun j _ => ⟨rfl, show isRateLimit exRateLimitError = true by decide⟩)
    (by omega)

/-! ### Theorems: the news merge (claims C4, C5) -/

/-- C4 counterexample: merging a batch with one unseen title prepends it;
the claim's predicted appended result differs from the actual one. -/
theorem mergeFetchedNews_prepends_cx :
    mergeFetchedNews [exNewsA] [exNewsB] = [exNewsB, exNewsA] ∧
    mergeFetchedNews [exNewsA] [exNewsB] ≠ [exNewsA] ++ [exNewsB] := by
  exact ⟨rfl, by decide⟩

/-- C4 amended: merging a fetched batch keeps every previously present
entry unchanged and in its original order (as a suffix), adds exactly the
batch entries whose titles were not already present, and these are
prepended (not appended) to the list. -/
theorem mergeFetchedNews_spec (prev items : List NewsItem) :
    List.IsSuffix prev (mergeFetchedNews prev items) ∧
    (∀ x, x ∈ items → (∀ y, y ∈ prev → y.title ≠ x.title) →
      x ∈ mergeFetchedNews prev items) ∧
    (∀ x, x ∈ mergeFetchedNews prev items →
      x ∈ prev ∨ (x ∈ items ∧ ∀ y, y ∈ prev → y.title ≠ x.title)) := by
  refine ⟨List.suffix_append _ _, ?_, ?_⟩
  · intro x hx hfresh
    apply List.mem_append_left
    rw [List.mem_filter]
    refine ⟨hx, ?_⟩
    have hany : (prev.map (fun n => n.title)).any (fun t => t == x.title)
        = false := by
      cases hh : (prev.map (fun n => n.title)).any (fun t => t == x.title) with
      | false => rfl
      | true =>
        rw [List.any_eq_true] at hh
        obtain ⟨t, ht, hbt⟩ := hh
        rw [List.mem_map] at ht
        obtain ⟨y, hy, hyt⟩ := ht
        exact absurd (by rw [hyt]; exact eq_of_beq hbt) (hfresh y hy)
    rw [hany]
    rfl
  · intro x hx
    have hx2 : x ∈ (items.filter (fun item =>
        !((prev.map (fun n => n.title)).any (fun t => t == item.title)))) ++
        prev := hx
    rw [List.mem_append] at hx2
    rcases hx2 with hleft | hright
    · rw [List.mem_filter] at hleft
      obtain ⟨hxi, hpred⟩ := hleft
      right
      refine ⟨hxi, ?_⟩
      intro y hy hyt
      have : (prev.map (fun n => n.title)).any (fun t => t == x.title)
          = true := by
        rw [List.any_eq_true]
        exact ⟨y.title, List.mem_map_of_mem _ hy, by rw [hyt]; exact beq_self_eq_true _⟩
      rw [this] at hpred
      exact absurd hpred (by decide)
    · exact Or.inl hright

/-- Witness for the amended C4: the previous list is a suffix of the
merge, and an unseen-title item from the batch is in the result. -/
theorem mergeFetchedNews_spec_witness :
    List.IsSuffix [exNewsA] (mergeFetchedNews [exNewsA] [exNewsB]) ∧
    exNewsB ∈ mergeFetchedNews [exNewsA] [exNewsB] := by
  have h := mergeFetchedNews_spec [exNewsA] [exNewsB]
  exact ⟨h.1, h.2.1 exNewsB (by decide) (by decide)⟩

/-- C5 counterexample: a single fetched batch containing two items with
the same (previously unseen) title leaves a duplicate title in the news
list. -/
theorem runFetches_dup_titles_cx :
    ¬ titlesNodup (runFetches [[exNewsDup1, exNewsDup2]]) := by decide

theorem mergeFetchedNews_titlesNodup (prev items : List NewsItem)
    (hprev : titlesNodup prev) (hitems : titlesNodup items) :
    titlesNodup (mergeFetchedNews prev items) := by
  show (List.map (fun n => n.title)
    ((items.filter (fun item =>
      !((prev.map (fun n => n.title)).any (fun t => t == item.title)))) ++
      prev)).Nodup
  rw [List.map_append, List.nodup_append]
  refine ⟨hitems.sublist (List.Sublist.map _ (List.filter_sublist items)),
    hprev, ?_⟩
  intro a ha hb
  rw [List.mem_map] at ha hb
  obtain ⟨x, hxf, hxa⟩ := ha
  obtain ⟨y, hy, hya⟩ := hb
  have hpred := List.of_mem_filter hxf
  have hany : (prev.map (fun n => n.title)).any (fun t => t == x.title)
      = true := by
    rw [List.any_eq_true]
    refine ⟨y.title, List.mem_map_of_mem _ hy, ?_⟩
    rw [hya, ← hxa]
    exact beq_self_eq_true _
  rw [hany] at hpred
  exact absurd hpred (by decide)

/-- C5 amended: provided every fetched batch has no internal duplicate
titles, any sequence of fetches leaves the news list without duplicate
titles (the merge only filters against titles already in the list, so a
batch with an internal duplicate violates the invariant). -/
theorem runFetches_titlesNodup (batches : List (List NewsItem))
    (h : ∀ b, b ∈ batches → titlesNodup b) :
    titlesNodup (runFetches batches) := by
  unfold runFetches
  have haux : ∀ (bs : List (List NewsItem)) (acc : List NewsItem),
      titlesNodup acc → (∀ b, b ∈ bs → titlesNodup b) →
      titlesNodup (bs.foldl mergeFetchedNews acc) := by
    intro bs
    induction bs with
    | nil => intro acc hacc _; exact hacc
    | cons b rest ih =>
      intro acc hacc hb
      rw [List.foldl_cons]
      exact ih (mergeFetchedNews acc b)
        (mergeFetchedNews_titlesNodup acc b hacc (hb b (List.mem_cons_self b rest)))
        (fun b2 hb2 => hb b2 (List.mem_cons_of_mem b hb2))
  exact haux batches [] (by simp [titlesNodup]) h

/-- Witness for the amended C5: two batches with distinct internal titles
produce a duplicate-free news list. -/
theorem runFetches_titlesNodup_witness :
    titlesNodup (runFetches [[exNewsA], [exNewsB, exNewsA]]) := by
  exact runFetches_titlesNodup [[exNewsA], [exNewsB, exNewsA]] (by decide)

/-! ### Theorems: saved projects (claims C6, C7, C1) -/

theorem set_eq_self_of_getElem? {β : Type} :
    ∀ (l : List β) (i : Nat) (a : β), l[i]? = some a → l.set i a = l := by
  intro l
  induction l with
  | nil => intro i a h; simp at h
  | cons x xs ih =>
    intro i a h
    cases i with
    | zero =>
      simp only [List.getElem?_cons_zero, Option.some.injEq] at h
      rw [← h]
      rfl
    | succ n =>
      simp only [List.getElem?_cons_succ] at h
      simp only [List.set_cons_succ]
      rw [ih n a h]

theorem mem_set_self {β : Type} :
    ∀ (l : List β) (i : Nat) (a : β), i < l.length → a ∈ l.set i a := by
  intro l
  induction l with
  | nil => intro i a h; simp at h
  | cons x xs ih =>
    intro i a h
    cases i with
    | zero => exact List.mem_cons_self a xs
    | succ n =>
      simp only [List.set_cons_succ]
      exact List.mem_cons_of_mem x (ih n a (by simpa using h))

theorem mem_set_of_ne {β : Type} :
    ∀ (l : List β) (i : Nat) (a q : β), q ∈ l → l[i]? ≠ some q →
      q ∈ l.set i a := by
  intro l
  induction l with
  | nil => intro i a q h _; simp at h
  | cons x xs ih =>
    intro i a q hq hne
    cases i with
    | zero =>
      rw [List.getElem?_cons_zero] at hne
      rcases List.mem_cons.mp hq with hqx | hqxs
      · exact absurd (by rw [hqx]) hne
      · exact List.mem_cons_of_mem a hqxs
    | succ n =>
      rw [List.getElem?_cons_succ] at hne
      simp only [List.set_cons_succ]
      rcases List.mem_cons.mp hq with hqx | hqxs
      · rw [hqx]; exact List.mem_cons_self x _
      · exact List.mem_cons_of_mem x (ih n a q hqxs hne)

theorem handleProjectSave_mem_self (prev : List SavedProject)
    (p : SavedProject) : p ∈ handleProjectSave prev p := by
  unfold handleProjectSave
  cases h : prev.findIdx? (fun q => q.id == p.id) with
  | none => exact List.mem_cons_self p prev
  | some i =>
    rw [List.findIdx?_eq_some_iff_getElem] at h
    obtain ⟨hi, _, _⟩ := h
    exact mem_set_self prev i p hi

theorem handleProjectSave_mem_of_ne (prev : List SavedProject)
    (p q : SavedProject) (hq : q ∈ prev) (hne : q.id ≠ p.id) :
    q ∈ handleProjectSave prev p := by
  unfold handleProjectSave
  cases h : prev.findIdx? (fun r => r.id == p.id) with
  | none => exact List.mem_cons_of_mem p hq
  | some i =>
    rw [List.findIdx?_eq_some_iff_getElem] at h
    obtain ⟨hi, hpi, _⟩ := h
    apply mem_set_of_ne prev i p q hq
    intro hcontra
    rw [List.getElem?_eq_getElem hi, Option.some.injEq] at hcontra
    apply hne
    rw [← hcontra]
    exact eq_of_beq hpi

theorem handleProjectSave_idsNodup (prev : List SavedProject)
    (p : SavedProject) (h : idsNodup prev) :
    idsNodup (handleProjectSave prev p) := by
  unfold handleProjectSave
  cases hf : prev.findIdx? (fun r => r.id == p.id) with
  | none =>
    rw [List.findIdx?_eq_none_iff] at hf
    show (List.map (fun q => q.id) (p :: prev)).Nodup
    rw [List.map_cons, List.nodup_cons]
    refine ⟨?_, h⟩
    intro hmem
    rw [List.mem_map] at hmem
    obtain ⟨r, hr, hid⟩ := hmem
    have hfalse := hf r hr
    rw [hid] at hfalse
    simp at hfalse
  | some i =>
    rw [List.findIdx?_eq_some_iff_getElem] at hf
    obtain ⟨hi, hpi, _⟩ := hf
    show (List.map (fun q => q.id) (prev.set i p)).Nodup
    rw [List.map_set]
    have hids : (prev.map (fun q => q.id))[i]? = some p.id := by
      rw [List.getElem?_map, List.getElem?_eq_getElem hi, Option.map_some']
      rw [eq_of_beq hpi]
    rw [set_eq_self_of_getElem? _ _ _ hids]
    exact h

theorem deleteProject_idsNodup (prev : List SavedProject) (pid : String)
    (c : Bool) (h : idsNodup prev) : idsNodup (deleteProject prev pid c) := by
  cases c with
  | false => exact h
  | true => exact h.sublist (List.Sublist.map _ (List.filter_sublist prev))

theorem handleGlobalImport_idsNodup (prev json : List SavedProject)
    (hprev : idsNodup prev) (hjson : idsNodup json) :
    idsNodup (handleGlobalImport prev (ImportPayload.arr json)) := by
  show (List.map (fun p => p.id)
      ((json.filter (fun j => !(prev.any (fun p => p.id == j.id)))) ++
        prev)).Nodup
  rw [List.map_append, List.nodup_append]
  refine ⟨hjson.sublist (List.Sublist.map _ (List.filter_sublist json)),
    hprev, ?_⟩
  intro a ha hb
  rw [List.mem_map] at ha hb
  obtain ⟨j, hjf, hja⟩ := ha
  obtain ⟨p, hp, hpa⟩ := hb
  have hpred := List.of_mem_filter hjf
  have hany : prev.any (fun r => r.id == j.id) = true := by
    rw [List.any_eq_true]
    refine ⟨p, hp, ?_⟩
    rw [hpa, ← hja]
    exact beq_self_eq_true _
  rw [hany] at hpred
  exact absurd hpred (by decide)

/-- C6 counterexample: importing an array that itself contains two
projects with the same (previously absent) id breaks id uniqueness. -/
theorem import_dup_ids_cx :
    ¬ idsNodup (handleGlobalImport [] (ImportPayload.arr [exProjB, exProjB2])) := by
  decide

/-- C6 amended: starting from a collection with unique ids, saving a
project and deleting by id preserve uniqueness, and importing an array
of projects preserves it provided the imported array itself has no
duplicate ids (the import only filters ids against the existing
collection, not within the payload). -/
theorem savedProjects_idsNodup_ops (prev json : List SavedProject)
    (project : SavedProject) (pid : String) (confirmed : Bool)
    (hprev : idsNodup prev) :
    idsNodup (handleProjectSave prev project) ∧
    idsNodup (deleteProject prev pid confirmed) ∧
    (idsNodup json → idsNodup (handleGlobalImport prev (ImportPayload.arr json))) :=
  ⟨handleProjectSave_idsNodup prev project hprev,
   deleteProject_idsNodup prev pid confirmed hprev,
   fun hjson => handleGlobalImport_idsNodup prev json hprev hjson⟩

/-- Witness for the amended C6 at a concrete collection. -/
theorem savedProjects_idsNodup_ops_witness :
    idsNodup (handleProjectSave [exProjB] exProjA) ∧
    idsNodup (deleteProject [exProjB] ("b") true) ∧
    idsNodup (handleGlobalImport [exProjB] (ImportPayload.arr [exProjA])) := by
  have h := savedProjects_idsNodup_ops [exProjB] [exProjA] exProjA ("b") true
    (by decide)
  exact ⟨h.1, h.2.1, h.2.2 (by decide)⟩

/-- C7: importing an array payload keeps every previously present project
unchanged (the old list is a suffix of the result), adds exactly those
imported projects whose ids are not already present, and a non-array
payload is rejected with the collection unchanged. -/
theorem handleGlobalImport_spec (prev json : List SavedProject) :
    handleGlobalImport prev ImportPayload.nonArray = prev ∧
    List.IsSuffix prev (handleGlobalImport prev (ImportPayload.arr json)) ∧
    (∀ j, j ∈ json → (∀ p, p ∈ prev → p.id ≠ j.id) →
      j ∈ handleGlobalImport prev (ImportPayload.arr json)) ∧
    (∀ x, x ∈ handleGlobalImport prev (ImportPayload.arr json) →
      x ∈ prev ∨ (x ∈ json ∧ ∀ p, p ∈ prev → p.id ≠ x.id)) := by
  refine ⟨rfl, List.suffix_append _ _, ?_, ?_⟩
  · intro j hj hfresh
    apply List.mem_append_left
    rw [List.mem_filter]
    refine ⟨hj, ?_⟩
    have hany : prev.any (fun p => p.id == j.id) = false := by
      cases hh : prev.any (fun p => p.id == j.id) with
      | false => rfl
      | true =>
        rw [List.any_eq_true] at hh
        obtain ⟨p, hp, hb⟩ := hh
        exact absurd (eq_of_beq hb) (hfresh p hp)
    rw [hany]
    rfl
  · intro x hx
    have hx2 : x ∈ (json.filter (fun j => !(prev.any (fun p => p.id == j.id)))) ++
        prev := hx
    rw [List.mem_append] at hx2
    rcases hx2 with hleft | hright
    · rw [List.mem_filter] at hleft
      obtain ⟨hxj, hpred⟩ := hleft
      right
      refine ⟨hxj, ?_⟩
      intro p hp hpid
      have hany : prev.any (fun r => r.id == x.id) = true := by
        rw [List.any_eq_true]
        exact ⟨p, hp, by rw [hpid]; exact beq_self_eq_true _⟩
      rw [hany] at hpred
      exact absurd hpred (by decide)
    · exact Or.inl hright

/-- Witness for C7: importing one new id and one already-present id into
a one-project collection adds the new one; a non-array payload leaves the
collection unchanged. -/
theorem handleGlobalImport_spec_witness :
    handleGlobalImport [exProjB] ImportPayload.nonArray = [exProjB] ∧
    exProjA ∈ handleGlobalImport [exProjB] (ImportPayload.arr [exProjA, exProjB2]) := by
  have h := handleGlobalImport_spec [exProjB] [exProjA, exProjB2]
  exact ⟨h.1, h.2.2.1 exProjA (by decide) (by decide)⟩

/-- C1 counterexample: a successful content-kit generation alone adds a
project to the empty saved-projects collection, with no explicit save. -/
theorem handleGenerate_saves_cx :
    handleGenerate [] none ("proj-1") exNewsA (Except.ok exContent)
      (Except.ok []) ("2024-01-01") ≠ [] := by decide

theorem handleGenerate_ok_eq (saved : List SavedProject)
    (existing : Option SavedProject) (newId : String) (item : NewsItem)
    (generated : GeneratedContent) (searchImgs : List GroundingImage)
    (now : String) :
    handleGenerate saved existing newId item (Except.ok generated)
      (Except.ok searchImgs) now =
    handleProjectSave saved (generatedProject existing newId item generated now
      (if generated.imageQueries.isEmpty then [] else searchImgs)) := by
  have hstep : handleGenerate saved existing newId item (Except.ok generated)
      (Except.ok searchImgs) now =
      (match (if generated.imageQueries.isEmpty then Except.ok []
          else Except.ok searchImgs : Except JsError (List GroundingImage)) with
       | Except.error _ => saved
       | Except.ok images =>
         handleProjectSave saved
           (generatedProject existing newId item generated now images)) := rfl
  rw [hstep]
  by_cases hq : generated.imageQueries.isEmpty = true
  · rw [if_pos hq, if_pos hq]
  · rw [if_neg hq, if_neg hq]

/-- C1 amended: a failed generation leaves the saved collection
unchanged, but a successful content-kit generation itself saves the
generated project through the same save handler as the explicit save
(adding it, or updating in place an existing project with the same id),
keeping every other project; the explicit save operation does the same
with the currently displayed content. -/
theorem handleGenerate_autosaves (saved : List SavedProject)
    (existing : Option SavedProject) (newId : String) (item : NewsItem)
    (generated : GeneratedContent) (searchImgs : List GroundingImage)
    (now : String) (e : JsError) :
    (∀ sr, handleGenerate saved existing newId item (Except.error e) sr now
      = saved) ∧
    (generatedProject existing newId item generated now
        (if generated.imageQueries.isEmpty then [] else searchImgs) ∈
      handleGenerate saved existing newId item (Except.ok generated)
        (Except.ok searchImgs) now) ∧
    (∀ q, q ∈ saved → q.id ≠ jsOrStr (existing.map (fun p => p.id)) newId →
      q ∈ handleGenerate saved existing newId item (Except.ok generated)
        (Except.ok searchImgs) now) := by
  refine ⟨fun _ => rfl, ?_, ?_⟩
  · rw [handleGenerate_ok_eq]
    exact handleProjectSave_mem_self _ _
  · intro q hq hne
    rw [handleGenerate_ok_eq]
    exact handleProjectSave_mem_of_ne _ _ q hq hne

/-- Witness for the amended C1: with one unrelated saved project, a
failed generation changes nothing, and a successful one saves the
generated project while keeping the unrelated one. -/
theorem handleGenerate_autosaves_witness :
    handleGenerate [exProjB] none ("proj-1") exNewsA (Except.error exOtherError)
      (Except.ok []) ("2024-01-01") = [exProjB] ∧
    generatedProject none ("proj-1") exNewsA exContent ("2024-01-01")
        (if exContent.imageQueries.isEmpty then [] else []) ∈
      handleGenerate [exProjB] none ("proj-1") exNewsA (Except.ok exContent)
        (Except.ok []) ("2024-01-01") ∧
    exProjB ∈ handleGenerate [exProjB] none ("proj-1") exNewsA
      (Except.ok exContent) (Except.ok []) ("2024-01-01") := by
  have h := handleGenerate_autosaves [exProjB] none ("proj-1") exNewsA
    exContent [] ("2024-01-01") exOtherError
  exact ⟨h.1 (Except.ok []), h.2.1, h.2.2 exProjB (by decide) (by decide)⟩

/-! ### Theorems: image search (claims C8, C10) -/

theorem dedupByUrl_pairwise (images : List GroundingImage) :
    (dedupByUrl images).Pairwise (fun a b => a.url ≠ b.url) := by
  unfold dedupByUrl
  rw [List.pairwise_map]
  have hfst : (images.enum).Pairwise (fun a b => a.1 ≠ b.1) := by
    have h1 : (images.enum.map Prod.fst).Pairwise (fun a b => a ≠ b) := by
      rw [List.enum_map_fst]
      exact List.nodup_range _
    exact List.pairwise_map.mp h1
  have hfilter := hfst.filter
    (fun iv => images.findIdx (fun v2 => v2.url == iv.2.url) == iv.1)
  refine hfilter.imp_of_mem ?_
  intro a b ha hb hne
  intro hurl
  have pa := List.of_mem_filter ha
  have pb := List.of_mem_filter hb
  have pa2 : images.findIdx (fun v2 => v2.url == a.2.url) = a.1 := eq_of_beq pa
  have pb2 : images.findIdx (fun v2 => v2.url == b.2.url) = b.1 := eq_of_beq pb
  apply hne
  rw [← pa2, ← pb2]
  simp only [hurl]

theorem dedupByUrl_take_spec (images : List GroundingImage) :
    ((dedupByUrl images).take 10).Pairwise (fun a b => a.url ≠ b.url) ∧
    ((dedupByUrl images).take 10).length ≤ 10 :=
  ⟨(dedupByUrl_pairwise images).sublist (List.take_sublist 10 _),
   List.length_take_le 10 _⟩

/-- C8: whenever the image search returns a result list, that list has
pairwise-distinct urls and at most 10 elements. -/
theorem searchRelatedImages_dedup_cap (apiKey : String)
    (queries : List String) (op : Nat → Except JsError GenResponse)
    (l : List GroundingImage)
    (h : searchRelatedImages apiKey queries op = Except.ok l) :
    l.Pairwise (fun a b => a.url ≠ b.url) ∧ l.length ≤ 10 := by
  unfold searchRelatedImages at h
  by_cases hkey : (apiKey == "") = true
  · rw [if_pos hkey] at h
    exact absurd h (by simp)
  · rw [if_neg hkey] at h
    cases hr : retryOperation op defaultRetries with
    | ok r =>
      rw [hr] at h
      simp only [Except.ok.injEq] at h
      rw [← h]
      exact dedupByUrl_take_spec _
    | error e =>
      rw [hr] at h
      simp only [Except.ok.injEq] at h
      rw [← h]
      simp

/-- Witness for C8: a response with a duplicated url yields a
deduplicated result of length at most 10. -/
theorem searchRelatedImages_dedup_cap_witness :
    searchRelatedImages ("k") [] exOpSearch = Except.ok exSearchResult ∧
    exSearchResult.Pairwise (fun a b => a.url ≠ b.url) ∧
    exSearchResult.length ≤ 10 := by
  have hh : searchRelatedImages ("k") [] exOpSearch
      = Except.ok exSearchResult := by rfl
  have h2 := searchRelatedImages_dedup_cap ("k") [] exOpSearch
    exSearchResult hh
  exact ⟨hh, h2.1, h2.2⟩

/-- C10 counterexample: with the API key missing, `getClient` throws
before the `try` block, so the image search operation itself propagates
an error rather than returning the empty list. -/
theorem searchRelatedImages_missing_key_cx :
    searchRelatedImages ("") [] (fun _ => Except.ok exResponse)
      = Except.error apiKeyMissingError := rfl

/-- C10 amended: with a configured (non-empty) API key the image search
never propagates an error — it always returns a result list, and any
failure of the retry-wrapped AI call (non-rate-limit, or rate limits
exhausting the retry budget) yields the empty list; only a missing API
key makes the operation fail, at client creation. -/
theorem searchRelatedImages_no_error_propagation (apiKey : String)
    (queries : List String) (op : Nat → Except JsError GenResponse)
    (hkey : apiKey ≠ "") :
    (∃ l, searchRelatedImages apiKey queries op = Except.ok l) ∧
    (∀ e, retryOperation op defaultRetries = Except.error e →
      searchRelatedImages apiKey queries op = Except.ok []) := by
  have hbeq : (apiKey == "") = false := by
    rw [beq_eq_false_iff_ne]
    exact hkey
  constructor
  · unfold searchRelatedImages
    rw [if_neg (by rw [hbeq]; exact Bool.false_ne_true)]
    cases hr : retryOperation op defaultRetries with
    | ok r => exact ⟨_, rfl⟩
    | error e => exact ⟨[], rfl⟩
  · intro e he
    unfold searchRelatedImages
    rw [if_neg (by rw [hbeq]; exact Bool.false_ne_true)]
    rw [he]

/-- Witness for the amended C10: a non-rate-limit failure of the
underlying call yields the empty image list instead of an error. -/
theorem searchRelatedImages_no_error_propagation_witness :
    searchRelatedImages ("k") [] exOpFailResp = Except.ok [] := by
  exact (searchRelatedImages_no_error_propagation ("k") [] exOpFailResp
    (by decide)).2 exOtherError rfl

/-! ### Theorems: persistence round-trip (claim C9) -/

theorem decodeOptStr_encode (o : Option String) :
    decodeOptStr (encodeOptStr o) = some o := by
  cases o <;> rfl

theorem decodeNewsItem_encode (n : NewsItem) :
    decodeNewsItem (encodeNewsItem n) = some n := by
  rcases n with ⟨i, t, sn, s, u, d⟩
  cases s <;> cases u <;> cases d <;> rfl

theorem decodeList_map_encode {α : Type} (enc : α → JsonValue)
    (dec : JsonValue → Option α) (h : ∀ a, dec (enc a) = some a) :
    ∀ l : List α, decodeList dec (l.map enc) = some l := by
  intro l
  induction l with
  | nil => rfl
  | cons a as ih => simp [decodeList, h a, ih]

theorem decodeStrList_encode (l : List String) :
    decodeStrList (encodeStrList l) = some l := by
  show decodeList decodeStr (l.map JsonValue.str) = some l
  exact decodeList_map_encode JsonValue.str decodeStr (fun a => rfl) l

theorem decodeGeneratedContent_encode (c : GeneratedContent) :
    decodeGeneratedContent (encodeGeneratedContent c) = some c := by
  rcases c with ⟨a, b, c2, d, ts, vs, qs⟩
  simp [encodeGeneratedContent, decodeGeneratedContent, decodeStrList_encode]

theorem decodeGroundingImage_encode (g : GroundingImage) :
    decodeGroundingImage (encodeGroundingImage g) = some g := rfl

theorem decodeOptContent_encode (o : Option GeneratedContent) :
    decodeOptContent (encodeOptContent o) = some o := by
  cases o with
  | none => rfl
  | some c =>
    have hstep : decodeOptContent (encodeOptContent (some c)) =
        (decodeGeneratedContent (encodeGeneratedContent c)).map some := rfl
    rw [hstep, decodeGeneratedContent_encode c]
    rfl

theorem decodeSavedProject_encode (p : SavedProject) :
    decodeSavedProject (encodeSavedProject p) = some p := by
  rcases p with ⟨i, n, gc, t, gs⟩
  simp [encodeSavedProject, decodeSavedProject, decodeNewsItem_encode,
    decodeOptContent_encode,
    decodeList_map_encode encodeGroundingImage decodeGroundingImage
      decodeGroundingImage_encode]

theorem decodeProjects_encode (ps : List SavedProject) :
    decodeProjects (encodeProjects ps) = some ps := by
  show decodeList decodeSavedProject (ps.map encodeSavedProject) = some ps
  exact decodeList_map_encode encodeSavedProject decodeSavedProject
    decodeSavedProject_encode ps

/-- C9: serializing the project collection to the single local-storage
key and reloading from that key yields back the very same collection —
in particular an identical set of projects by id. -/
theorem persistence_round_trip (store : LocalStore)
    (ps : List SavedProject) :
    loadProjectsFromStorage (saveProjectsToStorage store ps) = ps ∧
    (loadProjectsFromStorage (saveProjectsToStorage store ps)).map
        (fun p => p.id) = ps.map (fun p => p.id) := by
  have h : loadProjectsFromStorage (saveProjectsToStorage store ps) = ps := by
    unfold loadProjectsFromStorage saveProjectsToStorage setItem
    rw [if_pos (beq_self_eq_true storageKey)]
    show (decodeProjects (encodeProjects ps)).getD [] = ps
    rw [decodeProjects_encode]
    rfl
  exact ⟨h, by rw [h]⟩

end Policast
